import Mathlib

/-!
Verification of the vs2x theme translation engine.

The development shallowly embeds the two core components of the repository:

* `parseVscodeTheme` (src/unnamed/part_003, `vscodeThemeParser.ts`): validates a
  decoded JSON value and normalizes it into a `ParsedTheme`.
* `generateXcodeTheme` and its helper `hexToXcodeColor`
  (src/web_app/src/utils/xcodeThemeGenerator.ts): translates a `ParsedTheme`
  into an Xcode `.xccolortheme` XML string.

Dynamically-typed JavaScript values are embedded as the inductive `JsonValue`
(`undefVal` models JavaScript's `undefined`, numbers are restricted to integers,
which is all the claims exercise).  JavaScript runtime errors (TypeError on
property access of null/undefined, calling `.split` on a non-string) are
modelled with `Except String`.  JavaScript floats only occur in
`hexToXcodeColor`, where every computed value is `round(n * 10^6 / 255) / 10^6`
for an integer `n`; these are represented exactly by the scaled integer
`round(n * 10^6 / 255)` (double rounding never changes the result on this
range, because the exact values stay at distance ≥ 1/102 from every
half-integer while the floating error is below 10⁻⁹).
-/

inductive JsonValue where
  | undefVal
  | null
  | bool (b : Bool)
  | num (n : Int)
  | str (s : String)
  | arr (xs : List JsonValue)
  | obj (fields : List (String × JsonValue))

/-- JavaScript truthiness of a value. -/
def truthy : JsonValue → Bool
  | .undefVal => false
  | .null => false
  | .bool b => b
  | .num n => n != 0
  | .str s => s != ""
  | .arr _ => true
  | .obj _ => true

/-- `a || b` in JavaScript. -/
def jsOr (a b : JsonValue) : JsonValue := if truthy a then a else b

/-- Own-property lookup on an object literal; later duplicate keys win,
returning `undefined` when the key is absent. -/
def objGet (fields : List (String × JsonValue)) (k : String) : JsonValue :=
  fields.foldl (fun acc p => if p.1 == k then p.2 else acc) .undefVal

/-- Property access `v[k]` when `v` is known not to be nullish: objects expose
their own fields, every other non-nullish value yields `undefined`. -/
def getFieldT (v : JsonValue) (k : String) : JsonValue :=
  match v with
  | .obj fields => objGet fields k
  | _ => .undefVal

/-- Property access `v[k]` including the TypeError raised on `null`/`undefined`. -/
def getFieldE (v : JsonValue) (k : String) : Except String JsonValue :=
  match v with
  | .null => .error "TypeError: cannot read properties of null"
  | .undefVal => .error "TypeError: cannot read properties of undefined"
  | _ => .ok (getFieldT v k)

mutual

/-- JavaScript string coercion (`String(v)` / template literals). -/
def jsToString : JsonValue → String
  | .undefVal => "undefined"
  | .null => "null"
  | .bool b => if b then "true" else "false"
  | .num n => toString n
  | .str s => s
  | .arr xs => String.intercalate "," (jsToStringList xs)
  | .obj _ => "[object Object]"

/-- Array elements under `Array.prototype.join`: nullish elements print empty. -/
def jsToStringList : List JsonValue → List String
  | [] => []
  | x :: xs => jsToStringElem x :: jsToStringList xs

def jsToStringElem : JsonValue → String
  | .null => ""
  | .undefVal => ""
  | v => jsToString v

end

/-! ## Color format conversion (`hexToXcodeColor`) -/

/-- The character class skipped by `String.prototype.trim` and by `parseInt`
(ECMAScript WhiteSpace and LineTerminator code points). -/
def isJsSpace (c : Char) : Bool :=
  let n := c.toNat
  n == 32 || n == 9 || n == 10 || n == 13 || n == 11 || n == 12 ||
  n == 160 || n == 5760 || (8192 ≤ n && n ≤ 8202) || n == 8232 ||
  n == 8233 || n == 8239 || n == 8287 || n == 12288 || n == 65279

/-- `s.trim()`. -/
def jsTrim (l : List Char) : List Char :=
  ((l.dropWhile isJsSpace).reverse.dropWhile isJsSpace).reverse

/-- `s.replace('#', '')`: a string pattern replaces only the first occurrence,
anywhere in the string. -/
def removeFirstHash : List Char → List Char
  | [] => []
  | c :: cs => if c = '#' then cs else c :: removeFirstHash cs

/-- Value of a hexadecimal digit character, `none` otherwise. -/
def hexDigitVal? (c : Char) : Option Nat :=
  let n := c.toNat
  if 48 ≤ n ∧ n ≤ 57 then some (n - 48)
  else if 97 ≤ n ∧ n ≤ 102 then some (n - 87)
  else if 65 ≤ n ∧ n ≤ 70 then some (n - 55)
  else none

/-- The two sequential length adjustments of `hexToXcodeColor`:
3 characters are each duplicated, then a 6-character result gains `"FF"`. -/
def expandHexLen (h : List Char) : List Char :=
  let h1 := if h.length = 3 then h.flatMap (fun c => [c, c]) else h
  if h1.length = 6 then h1 ++ ['F', 'F'] else h1

/-- `hex.trim().replace('#','')` followed by the length adjustments. -/
def normalizeHex (hex : String) : List Char :=
  expandHexLen (removeFirstHash (jsTrim hex.toList))

/-- Unsigned part of `parseInt(s, 16)`: strip an optional `0x`/`0X` prefix,
then read the longest prefix of hex digits; no digits means NaN (`none`). -/
def hexMagnitude (l : List Char) : Option Nat :=
  let body :=
    match l with
    | c0 :: c1 :: rest => if c0 = '0' ∧ (c1 = 'x' ∨ c1 = 'X') then rest else l
    | _ => l
  let ds := body.takeWhile (fun c => (hexDigitVal? c).isSome)
  if ds.isEmpty then none
  else some (ds.foldl (fun a c => 16 * a + (hexDigitVal? c).getD 0) 0)

/-- `parseInt(s, 16)`: skip whitespace, optional sign, then the magnitude;
`none` models NaN. -/
def parseIntHex (l : List Char) : Option Int :=
  match l.dropWhile isJsSpace with
  | [] => none
  | c :: rest =>
    if c = '+' then (hexMagnitude rest).map Int.ofNat
    else if c = '-' then (hexMagnitude rest).map (fun n => -(n : Int))
    else (hexMagnitude (c :: rest)).map Int.ofNat

/-- `Math.round(p / 255 * 1000000)` for an integer channel value `p`,
computed exactly: `Math.round x = ⌊x + 1/2⌋` and the value is never a tie. -/
def channelScaled (p : Int) : Int := Int.fdiv (2000000 * p + 255) 510

/-- The same scaled channel on byte values (used to state properties). -/
def chanOfByte (b : Nat) : Nat := (2000000 * b + 255) / 510

/-- Channel bytes of an 8-hex-digit string, R G B A order. -/
def toBytes : List Char → List Nat
  | c1 :: c2 :: rest =>
      (16 * (hexDigitVal? c1).getD 0 + (hexDigitVal? c2).getD 0) :: toBytes rest
  | _ => []

def stripTrailingZeros (l : List Char) : List Char :=
  (l.reverse.dropWhile (· = '0')).reverse

def pad6 (m : Nat) : List Char :=
  let ds := (toString m).toList
  List.replicate (6 - ds.length) '0' ++ ds

/-- Shortest decimal printing of the double `m / 1000000` for `0 ≤ m ≤ 10^6`,
exactly what a JavaScript template literal produces on this range. -/
def fmtChannel (m : Nat) : String :=
  if m = 0 then "0"
  else if m = 1000000 then "1"
  else String.mk ('0' :: '.' :: stripTrailingZeros (pad6 m))

/-- The four `parseInt` calls of `hexToXcodeColor` on slices
`(0,2) (2,4) (4,6) (6,8)`; `none` when any channel is NaN. -/
def hexChannels (h : List Char) : Option (Int × Int × Int × Int) :=
  match parseIntHex (h.take 2), parseIntHex ((h.drop 2).take 2),
        parseIntHex ((h.drop 4).take 2), parseIntHex ((h.drop 6).take 2) with
  | some a, some b, some c, some d => some (a, b, c, d)
  | _, _, _, _ => none

/-- `hexToXcodeColor(hex, fallback)` from xcodeThemeGenerator.ts. -/
def hexToXcodeColor (hex : String) (fallback : String := "1 1 1 1") : String :=
  if hex = "" then fallback
  else if (normalizeHex hex).length ≠ 8 then fallback
  else
    match hexChannels (normalizeHex hex) with
    | none => fallback
    | some (pr, pg, pb, pa) =>
      if channelScaled pr < 0 ∨ 1000000 < channelScaled pr ∨
         channelScaled pg < 0 ∨ 1000000 < channelScaled pg ∨
         channelScaled pb < 0 ∨ 1000000 < channelScaled pb ∨
         channelScaled pa < 0 ∨ 1000000 < channelScaled pa then fallback
      else
        String.intercalate " "
          [fmtChannel (channelScaled pr).toNat, fmtChannel (channelScaled pg).toNat,
           fmtChannel (channelScaled pb).toNat, fmtChannel (channelScaled pa).toNat]

/-- The `!hex || typeof hex !== 'string'` guard: non-strings fall back. -/
def hexToXcodeColorV (v : JsonValue) (fallback : String) : String :=
  match v with
  | .str s => hexToXcodeColor s fallback
  | _ => fallback

/-! ## Theme parser (`parseVscodeTheme`, vscodeThemeParser.ts) -/

/-- The normalized theme, `ParsedVscodeTheme`.  Fields the JavaScript passes
through unvalidated keep type `JsonValue`; `semanticHighlighting` is forced to
a boolean by `=== true`. -/
structure ParsedTheme where
  name : JsonValue
  type : JsonValue
  colors : JsonValue
  tokenColors : JsonValue
  semanticHighlighting : Bool
  semanticTokenColors : JsonValue

def msgNotObject : String := "无效的 VSCode 主题文件：不是有效的 JSON 对象"

def msgMissingColors : String := "无效的 VSCode 主题文件：缺少 colors 字段"

/-- `typeof v === 'object'` (true for null, arrays and objects). -/
def isObjectType : JsonValue → Bool
  | .null => true
  | .arr _ => true
  | .obj _ => true
  | _ => false

/-- `parseVscodeTheme` from vscodeThemeParser.ts. -/
def parseVscodeTheme (json : JsonValue) : Except String ParsedTheme :=
  if ¬ (truthy json ∧ isObjectType json) then .error msgNotObject
  else if ¬ truthy (getFieldT json "colors") then .error msgMissingColors
  else .ok
    { name := jsOr (getFieldT json "name") (.str "Untitled Theme")
      type := jsOr (getFieldT json "type") (.str "dark")
      colors := jsOr (getFieldT json "colors") (.obj [])
      tokenColors := jsOr (getFieldT json "tokenColors") (.arr [])
      semanticHighlighting := getFieldT json "semanticHighlighting" matches .bool true
      semanticTokenColors := jsOr (getFieldT json "semanticTokenColors") (.obj []) }

/-! ## Theme translator (`generateXcodeTheme`, xcodeThemeGenerator.ts) -/

def xcodeRequiredKeys : List (String × String) :=
  [("DVTSourceTextBackground", "0.0584239 0.0584239 0.0584239 1"),
   ("DVTSourceTextSelectionColor", "0.253963 0.279965 0.351202 1"),
   ("DVTSourceTextCurrentLineHighlightColor", "0.107309 0.113809 0.131618 1"),
   ("DVTSourceTextInsertionPointColor", "0.973 0.973 0.941 1"),
   ("xcode.syntax.plain", "0.973 0.973 0.941 1")]

def colorMapping : List (String × String) :=
  [("editor.background", "DVTSourceTextBackground"),
   ("editor.foreground", "xcode.syntax.plain"),
   ("editor.selectionBackground", "DVTSourceTextSelectionColor"),
   ("editor.lineHighlightBackground", "DVTSourceTextCurrentLineHighlightColor"),
   ("editorCursor.foreground", "DVTSourceTextInsertionPointColor")]

def tokenMapping : List (String × String) :=
  [("comment", "xcode.syntax.comment"),
   ("string", "xcode.syntax.string"),
   ("string.quoted", "xcode.syntax.string"),
   ("string.quoted.double", "xcode.syntax.string"),
   ("string.quoted.single", "xcode.syntax.string"),
   ("constant.character", "xcode.syntax.character"),
   ("string.character", "xcode.syntax.character"),
   ("character", "xcode.syntax.character"),
   ("keyword", "xcode.syntax.keyword"),
   ("number", "xcode.syntax.number"),
   ("variable", "xcode.syntax.identifier.variable"),
   ("function", "xcode.syntax.identifier.function"),
   ("type", "xcode.syntax.identifier.type"),
   ("class", "xcode.syntax.identifier.class"),
   ("constant", "xcode.syntax.identifier.constant"),
   ("attribute", "xcode.syntax.attribute")]

def scopePriority : List String :=
  ["string", "string.quoted", "string.quoted.double", "string.quoted.single",
   "constant.character", "string.character", "character",
   "comment", "keyword", "number", "variable", "function", "type", "class",
   "constant", "attribute"]

def syntaxRequired : List String :=
  ["xcode.syntax.plain", "xcode.syntax.comment", "xcode.syntax.string",
   "xcode.syntax.keyword", "xcode.syntax.number",
   "xcode.syntax.identifier.variable", "xcode.syntax.identifier.constant"]

/-- `tokenMapping[k]` (values are non-empty, so found ⟺ truthy). -/
def tokenMappingGet (k : String) : Option String := tokenMapping.lookup k

/-- `Array.prototype.indexOf`: position or `-1`. -/
def jsIndexOfAux (s : String) : List String → Int → Int
  | [], _ => -1
  | x :: xs, i => if x == s then i else jsIndexOfAux s xs (i + 1)

def jsIndexOf (l : List String) (s : String) : Int := jsIndexOfAux s l 0

/-- `s.split('.')?.[0]`: the segment before the first dot. -/
def firstSegment (s : String) : String := String.mk (s.toList.takeWhile (· ≠ '.'))

/-- `tokenMapping[s] || tokenMapping[s.split('.')?.[0]]`: a non-string scope
that misses the table throws (`.split` is not a function on it).  Object
indexing coerces the key with `jsToString`, which is the identity on strings,
so the string case is split out (it also keeps this definition reducible,
`jsToString` being compiled by well-founded recursion). -/
def resolveMapped (s : JsonValue) : Except String (Option String) :=
  match s with
  | .str str =>
    match tokenMappingGet str with
    | some m => .ok (some m)
    | none => .ok (tokenMappingGet (firstSegment str))
  | other =>
    match tokenMappingGet (jsToString other) with
    | some m => .ok (some m)
    | none => .error "TypeError: split is not a function"

/-- JavaScript object assignment on a string record: update in place or
append a fresh key at the end. -/
def recSet (m : List (String × String)) (k v : String) : List (String × String) :=
  if m.any (fun p => p.1 == k) then m.map (fun p => if p.1 == k then (k, v) else p)
  else m ++ [(k, v)]

/-- `o[k] || d` on a string record. -/
def jsOrStr (o : Option String) (d : String) : String :=
  match o with
  | some s => if s = "" then d else s
  | none => d

/-- The retroactive previous-scope lookup of generateXcodeTheme:
`Object.keys(tokenMapping).find(key => tokenMapping[key] === mapped &&
syntaxColors[mapped] === hexToXcodeColor(settings.foreground))`.
The second conjunct does not depend on `key`. -/
def findPrevScope (mapped cur newColor : String) : Option String :=
  (tokenMapping.find? (fun p => p.2 == mapped && cur == newColor)).map (fun p => p.1)

/-- Processing of one scope string of one token rule. -/
def processScope (syn : List (String × String)) (s : JsonValue)
    (settings : JsonValue) : Except String (List (String × String)) := do
  let mapped? ← resolveMapped s
  match mapped? with
  | none => pure syn
  | some mapped =>
    let fg := getFieldT settings "foreground"
    if truthy fg then
      let newColor := hexToXcodeColorV fg "1 1 1 1"
      match syn.lookup mapped with
      | none => pure (recSet syn mapped newColor)
      | some cur =>
        let prevIdx : Int :=
          match findPrevScope mapped cur newColor with
          | some k => jsIndexOf scopePriority k
          | none => 999
        let currIdx : Int :=
          match s with
          | .str str => jsIndexOf scopePriority str
          | _ => -1
        if currIdx > -1 ∧ (prevIdx = -1 ∨ currIdx < prevIdx) then
          pure (recSet syn mapped newColor)
        else pure syn
    else pure syn

/-- Processing of one entry of `tokenColors` (accessing `.scope` on a nullish
entry throws). -/
def processToken (syn : List (String × String)) (token : JsonValue) :
    Except String (List (String × String)) := do
  let scope ← getFieldE token "scope"
  let scopes : List JsonValue :=
    match scope with
    | .arr xs => xs
    | .str s => [.str s]
    | _ => []
  let settings := jsOr (getFieldT token "settings") (.obj [])
  scopes.foldlM (fun acc s => processScope acc s settings) syn

/-- Step 2 of generateXcodeTheme: the token-color resolution loop
(skipped entirely unless `tokenColors` is an array). -/
def tokenPhase (tokenColors : JsonValue) : Except String (List (String × String)) :=
  match tokenColors with
  | .arr tokens => tokens.foldlM processToken []
  | _ => .ok []

/-- Step 1 of generateXcodeTheme: base UI colors, starting from
`xcodeRequiredKeys` and overriding via `colorMapping`. -/
def basePhase (colors : JsonValue) : Except String (List (String × String)) :=
  colorMapping.foldlM
    (fun acc p => do
      let v ← getFieldE colors p.1
      if truthy v then
        pure (recSet acc p.2 (hexToXcodeColorV v (jsOrStr (acc.lookup p.2) "1 1 1 1")))
      else pure acc)
    xcodeRequiredKeys

/-- Required syntax keys fall back to the current plain color (or its literal
default). -/
def fillRequired (base syn : List (String × String)) : List (String × String) :=
  syntaxRequired.foldl
    (fun acc k =>
      match acc.lookup k with
      | some v => if v ≠ "" then acc else recSet acc k (jsOrStr (base.lookup "xcode.syntax.plain") "0.973 0.973 0.941 1")
      | none => recSet acc k (jsOrStr (base.lookup "xcode.syntax.plain") "0.973 0.973 0.941 1"))
    syn

def plistEntry (k v : String) : String :=
  "<key>" ++ k ++ "</key>\n<string>" ++ v ++ "</string>"

def xmlHeader : String :=
  "<?xml version=\"1.0\" encoding=\"UTF-8\"?>\n<!DOCTYPE plist PUBLIC \"-//Apple//DTD PLIST 1.0//EN\" \"http://www.apple.com/DTDs/PropertyList-1.0.dtd\">\n<plist version=\"1.0\">\n<dict>\n"

/-- `generateXcodeTheme` from xcodeThemeGenerator.ts. -/
def generateXcodeTheme (theme : ParsedTheme) : Except String String := do
  let xcodeColors ← basePhase theme.colors
  let syn ← tokenPhase theme.tokenColors
  let syntaxColors := fillRequired xcodeColors syn
  let items1 := xcodeColors.map (fun p => plistEntry p.1 p.2)
  let items2 := ["<key>DVTSourceTextSyntaxColors</key>\n<dict>"] ++
    syntaxColors.map (fun p => plistEntry p.1 p.2) ++ ["</dict>"]
  let nameStr :=
    match theme.name with
    | .str s => s
    | v => jsToString v
  let items3 :=
    if truthy theme.name then
      ["<key>XCThemeName</key>\n<string>" ++ nameStr ++ "</string>"]
    else []
  pure (xmlHeader ++ String.intercalate "\n" (items1 ++ items2 ++ items3) ++
    "\n</dict>\n</plist>\n")

/-! ## Substring helper used to state "the document contains ..." claims -/

def isPrefixList : List Char → List Char → Bool
  | [], _ => true
  | _ :: _, [] => false
  | a :: l, b :: m => a == b && isPrefixList l m

def containsChars (needle : List Char) : List Char → Bool
  | [] => isPrefixList needle []
  | c :: rest => isPrefixList needle (c :: rest) || containsChars needle rest

/-- `needle` occurs verbatim inside `hay`. -/
def containsStr (hay needle : String) : Bool := containsChars needle.toList hay.toList

/-- Substring test under `Except`: `false` on an error. -/
def exceptContains (e : Except String String) (needle : String) : Bool :=
  match e with
  | .ok d => containsStr d needle
  | .error _ => false

/-! ## Claim theorems -/

/-- **C8.** `parseVscodeTheme` on `{colors: {}}` succeeds and returns the fully
normalized theme: name `"Untitled Theme"`, type (the spec's `kind`) `"dark"`,
empty colors, empty tokenColors, `semanticHighlighting = false` and empty
`semanticTokenColors`. -/
theorem parseVscodeTheme_empty_colors_defaults :
    parseVscodeTheme (.obj [("colors", .obj [])]) =
      .ok { name := .str "Untitled Theme", type := .str "dark",
            colors := .obj [], tokenColors := .arr [],
            semanticHighlighting := false, semanticTokenColors := .obj [] } := rfl

/-- **C3 counterexample.** The claim says every object carrying a `colors`
field parses successfully, but the code tests `!json.colors` (truthiness):
`{colors: ""}` carries a `colors` field and still raises the
missing-`colors` `ValidationError`. -/
theorem parseVscodeTheme_falsy_colors_error :
    parseVscodeTheme (.obj [("colors", .str "")]) = .error msgMissingColors := rfl

/-- **C5 counterexample.** `"1234567z"` normalizes to an 8-character string
that is not made of 8 hex digits, so the claim demands the fallback
`"1 1 1 1"`; the code instead parses each channel pair by longest hex prefix
(`parseInt("7z", 16) = 7`) and returns a computed color. -/
theorem hexToXcodeColor_nonhex_parses :
    hexToXcodeColor "1234567z" "1 1 1 1" = "0.070588 0.203922 0.337255 0.027451" ∧
    "0.070588 0.203922 0.337255 0.027451" ≠ "1 1 1 1" := by
  refine ⟨rfl, ?_⟩
  decide

/-- **C2 (code misbehaves).** Two token rules with listed scopes `"string"`
and `"string.quoted.double"` and different foregrounds: the stored color never
equals the incoming one, so the retroactive lookup fails, `prevIdx` becomes
999 and every listed scope overwrites.  The last rule wins and the resolved
color depends on rule order, contradicting the priority-only overwrite policy
stated by the claim and by the code's own comment. -/
theorem tokenPhase_last_listed_rule_wins :
    tokenPhase (.arr
      [.obj [("scope", .str "string"),
             ("settings", .obj [("foreground", .str "#111111")])],
       .obj [("scope", .str "string.quoted.double"),
             ("settings", .obj [("foreground", .str "#222222")])]]) =
      .ok [("xcode.syntax.string", "0.133333 0.133333 0.133333 1")] ∧
    tokenPhase (.arr
      [.obj [("scope", .str "string.quoted.double"),
             ("settings", .obj [("foreground", .str "#222222")])],
       .obj [("scope", .str "string"),
             ("settings", .obj [("foreground", .str "#111111")])]]) =
      .ok [("xcode.syntax.string", "0.066667 0.066667 0.066667 1")] ∧
    ("0.133333 0.133333 0.133333 1" : String) ≠ "0.066667 0.066667 0.066667 1" := by
  refine ⟨rfl, rfl, ?_⟩
  decide

/-- **C6 counterexample.** Scopes `"string.template"` and `"string.regexp"`
are both unlisted (priority index −1) and both map to the string output key
via the first-segment fallback.  The claim asserts the second rule overwrites
the first (both sources unlisted); the code requires `currIdx > -1`, so the
first color survives. -/
theorem tokenPhase_unlisted_no_overwrite_cex :
    tokenPhase (.arr
      [.obj [("scope", .str "string.template"),
             ("settings", .obj [("foreground", .str "#111111")])],
       .obj [("scope", .str "string.regexp"),
             ("settings", .obj [("foreground", .str "#222222")])]]) =
      .ok [("xcode.syntax.string", "0.066667 0.066667 0.066667 1")] ∧
    ("0.066667 0.066667 0.066667 1" : String) ≠
      hexToXcodeColor "#222222" "1 1 1 1" := by
  refine ⟨rfl, ?_⟩
  decide

/-- **C4 counterexample.** A canonical theme whose `tokenColors` contains a
`null` entry (a legal `Array<any>` element) makes `generateXcodeTheme` read
`token.scope` on `null` and throw, so the translator is not total. -/
theorem generateXcodeTheme_null_token_error :
    generateXcodeTheme
      { name := .str "T", type := .str "dark", colors := .obj [],
        tokenColors := .arr [.null], semanticHighlighting := false,
        semanticTokenColors := .obj [] } =
      .error "TypeError: cannot read properties of null" := rfl

/-- The document produced for the minimal valid input `{colors: {}}`. -/
def defaultThemeDoc : Except String String :=
  (parseVscodeTheme (.obj [("colors", .obj [])])).bind generateXcodeTheme

set_option maxRecDepth 40000 in
/-- **C7.** `translate(parse({colors:{}}))` contains, verbatim, the five
literal base-color defaults and all seven required syntax keys, each set to
the plain-text default `0.973 0.973 0.941 1`. -/
theorem generateXcodeTheme_default_doc :
    exceptContains defaultThemeDoc
      "<key>DVTSourceTextBackground</key>\n<string>0.0584239 0.0584239 0.0584239 1</string>" = true ∧
    exceptContains defaultThemeDoc
      "<key>DVTSourceTextSelectionColor</key>\n<string>0.253963 0.279965 0.351202 1</string>" = true ∧
    exceptContains defaultThemeDoc
      "<key>DVTSourceTextCurrentLineHighlightColor</key>\n<string>0.107309 0.113809 0.131618 1</string>" = true ∧
    exceptContains defaultThemeDoc
      "<key>DVTSourceTextInsertionPointColor</key>\n<string>0.973 0.973 0.941 1</string>" = true ∧
    exceptContains defaultThemeDoc
      "<key>xcode.syntax.plain</key>\n<string>0.973 0.973 0.941 1</string>" = true ∧
    exceptContains defaultThemeDoc
      "<key>xcode.syntax.comment</key>\n<string>0.973 0.973 0.941 1</string>" = true ∧
    exceptContains defaultThemeDoc
      "<key>xcode.syntax.string</key>\n<string>0.973 0.973 0.941 1</string>" = true ∧
    exceptContains defaultThemeDoc
      "<key>xcode.syntax.keyword</key>\n<string>0.973 0.973 0.941 1</string>" = true ∧
    exceptContains defaultThemeDoc
      "<key>xcode.syntax.number</key>\n<string>0.973 0.973 0.941 1</string>" = true ∧
    exceptContains defaultThemeDoc
      "<key>xcode.syntax.identifier.variable</key>\n<string>0.973 0.973 0.941 1</string>" = true ∧
    exceptContains defaultThemeDoc
      "<key>xcode.syntax.identifier.constant</key>\n<string>0.973 0.973 0.941 1</string>" = true := by
  refine ⟨rfl, rfl, rfl, rfl, rfl, rfl, rfl, rfl, rfl, rfl, rfl⟩

set_option maxRecDepth 40000 in
/-- **C9.** For a canonical theme whose colors mapping is exactly
`{"editor.background": "#112233"}`, the translator's base-color table maps
background to `hexToXcodeColor("#112233", <default background>)` while the
other four base keys keep their literal defaults. -/
theorem basePhase_background_override (theme : ParsedTheme)
    (h : theme.colors = .obj [("editor.background", .str "#112233")]) :
    basePhase theme.colors =
      .ok [("DVTSourceTextBackground",
              hexToXcodeColor "#112233" "0.0584239 0.0584239 0.0584239 1"),
           ("DVTSourceTextSelectionColor", "0.253963 0.279965 0.351202 1"),
           ("DVTSourceTextCurrentLineHighlightColor", "0.107309 0.113809 0.131618 1"),
           ("DVTSourceTextInsertionPointColor", "0.973 0.973 0.941 1"),
           ("xcode.syntax.plain", "0.973 0.973 0.941 1")] := by
  rw [h]; rfl

set_option maxRecDepth 40000 in
/-- Witness for `basePhase_background_override` at a concrete theme. -/
theorem basePhase_background_override_witness :
    basePhase (ParsedTheme.colors
        { name := .str "T", type := .str "dark",
          colors := .obj [("editor.background", .str "#112233")],
          tokenColors := .arr [], semanticHighlighting := false,
          semanticTokenColors := .obj [] }) =
      .ok [("DVTSourceTextBackground",
              hexToXcodeColor "#112233" "0.0584239 0.0584239 0.0584239 1"),
           ("DVTSourceTextSelectionColor", "0.253963 0.279965 0.351202 1"),
           ("DVTSourceTextCurrentLineHighlightColor", "0.107309 0.113809 0.131618 1"),
           ("DVTSourceTextInsertionPointColor", "0.973 0.973 0.941 1"),
           ("xcode.syntax.plain", "0.973 0.973 0.941 1")] :=
  basePhase_background_override _ rfl

/-- **C10.** In `parseVscodeTheme`, defaulting of `name` and `type` (the
spec's `kind`) is triggered by any falsy field value, not only absence:
whenever the accepted input's `name` is falsy the result's name is
`"Untitled Theme"`, and whenever its `type` is falsy the result's type is
`"dark"`. -/
theorem parseVscodeTheme_falsy_defaults (j : JsonValue) (t : ParsedTheme)
    (h : parseVscodeTheme j = .ok t) :
    (truthy (getFieldT j "name") = false → t.name = .str "Untitled Theme") ∧
    (truthy (getFieldT j "type") = false → t.type = .str "dark") := by
  unfold parseVscodeTheme at h
  split at h
  · exact absurd h (by simp)
  · split at h
    · exact absurd h (by simp)
    · injection h with h'
      subst h'
      constructor <;> intro hf <;> simp [jsOr, hf]

/-- Witness for `parseVscodeTheme_falsy_defaults`: a present-but-empty `name`
and `type` both get defaulted. -/
theorem parseVscodeTheme_falsy_defaults_witness :
    ∃ t, parseVscodeTheme
        (.obj [("name", .str ""), ("type", .str ""), ("colors", .obj [])]) = .ok t ∧
      t.name = .str "Untitled Theme" ∧ t.type = .str "dark" := by
  refine ⟨_, rfl, ?_⟩
  have h := parseVscodeTheme_falsy_defaults
    (.obj [("name", .str ""), ("type", .str ""), ("colors", .obj [])]) _ rfl
  exact ⟨h.1 rfl, h.2 rfl⟩

/-- **C3 amended.** `parseVscodeTheme` fails exactly when the input is not a
truthy value of JavaScript object type (undefined, null, booleans, numbers,
strings) or when its `colors` field is falsy (absent, undefined, null, false,
0, or the empty string); the two failure messages are distinct, and every
other input parses successfully. -/
theorem parseVscodeTheme_error_iff (j : JsonValue) :
    (parseVscodeTheme j = .error msgNotObject ↔
      ¬ (truthy j = true ∧ isObjectType j = true)) ∧
    (parseVscodeTheme j = .error msgMissingColors ↔
      ((truthy j = true ∧ isObjectType j = true) ∧
        truthy (getFieldT j "colors") = false)) ∧
    ((∃ t, parseVscodeTheme j = .ok t) ↔
      (truthy j = true ∧ isObjectType j = true) ∧
        truthy (getFieldT j "colors") = true) ∧
    msgNotObject ≠ msgMissingColors := by
  have hmsg : msgNotObject ≠ msgMissingColors := by decide
  unfold parseVscodeTheme
  by_cases h1 : truthy j = true ∧ isObjectType j = true
  · by_cases h2 : truthy (getFieldT j "colors") = true
    · simp [h1, h2, hmsg]
    · simp only [Bool.not_eq_true] at h2
      simp [h1, h2, hmsg, Ne.symm hmsg]
  · simp [h1, hmsg]

/-- **C6 amended.** A token rule whose scope string is unlisted
(`scopePriority` index −1) but maps to an output key never overwrites an
already-assigned color for that key — regardless of which scope produced the
existing value (the code requires `currIdx > -1` before any overwrite). -/
theorem processScope_unlisted_never_overwrites
    (syn : List (String × String)) (s : String) (settings : JsonValue)
    (k cur : String)
    (hm : resolveMapped (.str s) = .ok (some k))
    (hk : syn.lookup k = some cur)
    (hun : jsIndexOf scopePriority s = -1) :
    processScope syn (.str s) settings = .ok syn := by
  unfold processScope
  rw [hm]
  simp only [Bind.bind, Except.bind, hk, hun]
  by_cases hfg : truthy (getFieldT settings "foreground") = true
  · simp [hfg, hk, hun, Pure.pure, Except.pure]
  · simp only [Bool.not_eq_true] at hfg
    simp [hfg, Pure.pure, Except.pure]

/-- Witness for `processScope_unlisted_never_overwrites`: the unlisted scope
`"string.regexp"` leaves an existing string color untouched. -/
theorem processScope_unlisted_never_overwrites_witness :
    processScope [("xcode.syntax.string", "0.066667 0.066667 0.066667 1")]
      (.str "string.regexp") (.obj [("foreground", .str "#222222")]) =
      .ok [("xcode.syntax.string", "0.066667 0.066667 0.066667 1")] :=
  processScope_unlisted_never_overwrites _ _ _ "xcode.syntax.string"
    "0.066667 0.066667 0.066667 1" rfl rfl rfl

/-- The range test of `hexToXcodeColor` on the four scaled channels. -/
def quadBad (q : Int × Int × Int × Int) : Prop :=
  channelScaled q.1 < 0 ∨ 1000000 < channelScaled q.1 ∨
  channelScaled q.2.1 < 0 ∨ 1000000 < channelScaled q.2.1 ∨
  channelScaled q.2.2.1 < 0 ∨ 1000000 < channelScaled q.2.2.1 ∨
  channelScaled q.2.2.2 < 0 ∨ 1000000 < channelScaled q.2.2.2

/-- **C5 amended.** `hexToXcodeColor` returns the fallback verbatim exactly in
these cases: empty input, a normalized result whose length is not 8, a channel
pair with no parseable hex prefix (`parseInt` NaN), or a channel outside
[0,1].  (An 8-character normalized result containing a non-hex character is
*not* in general one of these cases, because `parseInt` accepts any string
with a hex-digit prefix.) -/
theorem hexToXcodeColor_fallback_cases (hex fb : String)
    (h : hex = "" ∨ (normalizeHex hex).length ≠ 8 ∨
         hexChannels (normalizeHex hex) = none ∨
         (∃ q, hexChannels (normalizeHex hex) = some q ∧ quadBad q)) :
    hexToXcodeColor hex fb = fb := by
  unfold hexToXcodeColor
  by_cases h0 : hex = ""
  · simp [h0]
  · rcases h with h | h | h | ⟨⟨a, b, c, d⟩, hq, hbad⟩
    · exact absurd h h0
    · simp [h0, h]
    · by_cases h8 : (normalizeHex hex).length = 8
      · simp [h0, h8, h]
      · simp [h0, h8]
    · by_cases h8 : (normalizeHex hex).length = 8
      · unfold quadBad at hbad
        simp [h0, h8, hq, hbad]
      · simp [h0, h8]

/-- Witness for `hexToXcodeColor_fallback_cases`: `"not-a-color"` yields the
supplied fallback unchanged. -/
theorem hexToXcodeColor_fallback_cases_witness :
    hexToXcodeColor "not-a-color" "0 0 0 0" = "0 0 0 0" :=
  hexToXcodeColor_fallback_cases "not-a-color" "0 0 0 0"
    (Or.inr (Or.inl (by decide)))

/-- A scope-list entry on which `resolveMapped` cannot throw: a string, or a
value whose coerced key hits the scope table. -/
def scopeEntrySafe (x : JsonValue) : Prop :=
  (∃ s, x = JsonValue.str s) ∨ (tokenMappingGet (jsToString x)).isSome = true

/-- A `tokenColors` entry on which `processToken` cannot throw. -/
def tokenSafe (t : JsonValue) : Prop :=
  t ≠ JsonValue.null ∧ t ≠ JsonValue.undefVal ∧
  ∀ xs, getFieldT t "scope" = JsonValue.arr xs → ∀ x ∈ xs, scopeEntrySafe x

/-- All entries of a `tokenColors` value are safe (vacuous for non-arrays,
which the generator skips). -/
def tokensSafe (tc : JsonValue) : Prop :=
  ∀ ts, tc = JsonValue.arr ts → ∀ t ∈ ts, tokenSafe t

theorem getFieldE_ok (v : JsonValue) (k : String)
    (h1 : v ≠ JsonValue.null) (h2 : v ≠ JsonValue.undefVal) :
    getFieldE v k = .ok (getFieldT v k) := by
  cases v <;> simp_all [getFieldE]

theorem resolveMapped_ok (x : JsonValue) (h : scopeEntrySafe x) :
    ∃ o, resolveMapped x = .ok o := by
  rcases h with ⟨s, rfl⟩ | h
  · rcases hm : tokenMappingGet s with _ | m
    · exact ⟨tokenMappingGet (firstSegment s), by simp [resolveMapped, hm]⟩
    · exact ⟨some m, by simp [resolveMapped, hm]⟩
  · obtain ⟨m, hm⟩ := Option.isSome_iff_exists.mp h
    refine ⟨some m, ?_⟩
    cases x <;> simp only [jsToString] at hm <;> simp [resolveMapped, jsToString, hm]

theorem processScope_ok (syn : List (String × String)) (x settings : JsonValue)
    (h : scopeEntrySafe x) :
    ∃ m, processScope syn x settings = .ok m := by
  obtain ⟨o, ho⟩ := resolveMapped_ok x h
  unfold processScope
  rw [ho]
  simp only [Bind.bind, Except.bind, Pure.pure, Except.pure]
  rcases o with _ | mapped
  · exact ⟨_, rfl⟩
  · by_cases hfg : truthy (getFieldT settings "foreground") = true
    · simp only [hfg, if_true]
      rcases hl : syn.lookup mapped with _ | cur
      · exact ⟨_, rfl⟩
      · exact ⟨_, (apply_ite Except.ok _ _ _).symm⟩
    · simp only [Bool.not_eq_true] at hfg
      simp only [hfg, Bool.false_eq_true, if_false]
      exact ⟨_, rfl⟩

theorem foldScopes_ok (settings : JsonValue) :
    ∀ (xs : List JsonValue) (syn : List (String × String)),
      (∀ x ∈ xs, scopeEntrySafe x) →
      ∃ m, xs.foldlM (fun acc s => processScope acc s settings) syn = .ok m := by
  intro xs
  induction xs with
  | nil => exact fun syn _ => ⟨syn, rfl⟩
  | cons x rest ih =>
    intro syn h
    obtain ⟨m1, hm1⟩ := processScope_ok syn x settings (h x (by simp))
    obtain ⟨m2, hm2⟩ := ih m1 (fun y hy => h y (by simp [hy]))
    exact ⟨m2, by simp [List.foldlM_cons, hm1, hm2, Bind.bind, Except.bind]⟩

theorem processToken_ok (syn : List (String × String)) (t : JsonValue)
    (h : tokenSafe t) :
    ∃ m, processToken syn t = .ok m := by
  obtain ⟨h1, h2, h3⟩ := h
  unfold processToken
  rw [getFieldE_ok t "scope" h1 h2]
  simp only [Bind.bind, Except.bind]
  rcases hv : getFieldT t "scope" with _ | _ | b | n | s | xs | fs
  · exact foldScopes_ok _ [] syn (by simp)
  · exact foldScopes_ok _ [] syn (by simp)
  · exact foldScopes_ok _ [] syn (by simp)
  · exact foldScopes_ok _ [] syn (by simp)
  · exact foldScopes_ok _ [.str s] syn (by simp [scopeEntrySafe])
  · exact foldScopes_ok _ xs syn (h3 xs hv)
  · exact foldScopes_ok _ [] syn (by simp)

theorem foldTokens_ok :
    ∀ (ts : List JsonValue) (syn : List (String × String)),
      (∀ t ∈ ts, tokenSafe t) → ∃ m, ts.foldlM processToken syn = .ok m := by
  intro ts
  induction ts with
  | nil => exact fun syn _ => ⟨syn, rfl⟩
  | cons t rest ih =>
    intro syn h
    obtain ⟨m1, hm1⟩ := processToken_ok syn t (h t (by simp))
    obtain ⟨m2, hm2⟩ := ih m1 (fun y hy => h y (by simp [hy]))
    exact ⟨m2, by simp [List.foldlM_cons, hm1, hm2, Bind.bind, Except.bind]⟩

theorem tokenPhase_ok (tc : JsonValue) (h : tokensSafe tc) :
    ∃ m, tokenPhase tc = .ok m := by
  unfold tokenPhase
  rcases tc with _ | _ | b | n | s | ts | fs
  · exact ⟨_, rfl⟩
  · exact ⟨_, rfl⟩
  · exact ⟨_, rfl⟩
  · exact ⟨_, rfl⟩
  · exact ⟨_, rfl⟩
  · exact foldTokens_ok ts [] (h ts rfl)
  · exact ⟨_, rfl⟩

theorem baseFold_ok (colors : JsonValue)
    (h1 : colors ≠ JsonValue.null) (h2 : colors ≠ JsonValue.undefVal) :
    ∀ (l acc : List (String × String)),
      ∃ m, l.foldlM
        (fun acc p => do
          let v ← getFieldE colors p.1
          if truthy v then
            pure (recSet acc p.2 (hexToXcodeColorV v (jsOrStr (acc.lookup p.2) "1 1 1 1")))
          else pure acc)
        acc = .ok m := by
  intro l
  induction l with
  | nil => exact fun acc => ⟨acc, rfl⟩
  | cons p rest ih =>
    intro acc
    have hstep : ∃ acc',
        (do
          let v ← getFieldE colors p.1
          if truthy v then
            pure (recSet acc p.2 (hexToXcodeColorV v (jsOrStr (acc.lookup p.2) "1 1 1 1")))
          else pure acc : Except String (List (String × String))) = .ok acc' := by
      rw [getFieldE_ok colors p.1 h1 h2]
      simp only [Bind.bind, Except.bind, Pure.pure, Except.pure]
      exact ⟨_, (apply_ite Except.ok _ _ _).symm⟩
    obtain ⟨acc', hacc⟩ := hstep
    obtain ⟨m2, hm2⟩ := ih acc'
    refine ⟨m2, ?_⟩
    rw [List.foldlM_cons]
    simp only [Bind.bind, Except.bind] at hacc ⊢
    rw [hacc]
    exact hm2

theorem basePhase_ok (colors : JsonValue)
    (h1 : colors ≠ JsonValue.null) (h2 : colors ≠ JsonValue.undefVal) :
    ∃ m, basePhase colors = .ok m := by
  unfold basePhase
  exact baseFold_ok colors h1 h2 colorMapping xcodeRequiredKeys

/-- **C4 amended.** The translator is total — returns a serialized document
and never raises — for every canonical theme whose `colors` is not nullish
and whose `tokenColors` entries are all non-nullish with scope arrays made of
strings (or table-hitting values); this covers everything the parser produces
from well-formed theme JSON.  It is *not* total over arbitrary values of the
parser's output type: a nullish `tokenColors` entry makes it throw
(see the counterexample). -/
theorem generateXcodeTheme_total_of_safe (theme : ParsedTheme)
    (h1 : theme.colors ≠ JsonValue.null) (h2 : theme.colors ≠ JsonValue.undefVal)
    (h3 : tokensSafe theme.tokenColors) :
    ∃ out, generateXcodeTheme theme = .ok out := by
  obtain ⟨bc, hbc⟩ := basePhase_ok theme.colors h1 h2
  obtain ⟨sc, hsc⟩ := tokenPhase_ok theme.tokenColors h3
  unfold generateXcodeTheme
  simp only [hbc, hsc, Bind.bind, Except.bind, Pure.pure, Except.pure]
  exact ⟨_, rfl⟩

/-- Witness for `generateXcodeTheme_total_of_safe` at the parse of
`{colors: {}}`. -/
theorem generateXcodeTheme_total_of_safe_witness :
    ∃ out, generateXcodeTheme
      { name := .str "Untitled Theme", type := .str "dark",
        colors := .obj [], tokenColors := .arr [],
        semanticHighlighting := false, semanticTokenColors := .obj [] } =
      .ok out := by
  apply generateXcodeTheme_total_of_safe
  · exact fun h => JsonValue.noConfusion h
  · exact fun h => JsonValue.noConfusion h
  · intro ts hts t ht
    cases hts
    simp at ht

/-! ## Lemmas about the hex normalization pipeline (claim C1) -/

theorem hexDigitVal?_isSome_iff (c : Char) :
    (hexDigitVal? c).isSome = true ↔
      (48 ≤ c.toNat ∧ c.toNat ≤ 57) ∨ (97 ≤ c.toNat ∧ c.toNat ≤ 102) ∨
      (65 ≤ c.toNat ∧ c.toNat ≤ 70) := by
  unfold hexDigitVal?
  by_cases h1 : 48 ≤ c.toNat ∧ c.toNat ≤ 57
  · simp [h1]
    try omega
  · by_cases h2 : 97 ≤ c.toNat ∧ c.toNat ≤ 102
    · simp [h1, h2]
      try omega
    · by_cases h3 : 65 ≤ c.toNat ∧ c.toNat ≤ 70
      · simp [h1, h2, h3]
        try omega
      · simp [h1, h2, h3]
        try omega

theorem isJsSpace_eq_true_iff (c : Char) :
    isJsSpace c = true ↔
      (c.toNat = 32 ∨ c.toNat = 9 ∨ c.toNat = 10 ∨ c.toNat = 13 ∨
       c.toNat = 11 ∨ c.toNat = 12 ∨ c.toNat = 160 ∨ c.toNat = 5760 ∨
       (8192 ≤ c.toNat ∧ c.toNat ≤ 8202) ∨ c.toNat = 8232 ∨ c.toNat = 8233 ∨
       c.toNat = 8239 ∨ c.toNat = 8287 ∨ c.toNat = 12288 ∨ c.toNat = 65279) := by
  unfold isJsSpace
  simp [Bool.or_eq_true, Bool.and_eq_true, decide_eq_true_eq, beq_iff_eq]
  tauto

theorem hexDigit_not_space (c : Char) (h : (hexDigitVal? c).isSome = true) :
    isJsSpace c = false := by
  have hr := (hexDigitVal?_isSome_iff c).mp h
  rw [Bool.eq_false_iff]
  intro hs
  have := (isJsSpace_eq_true_iff c).mp hs
  omega

theorem char_toNat_of_eq (c d : Char) (h : c = d) : c.toNat = d.toNat := by rw [h]

theorem hexDigit_toNat_ranges (c : Char) (h : (hexDigitVal? c).isSome = true) :
    (48 ≤ c.toNat ∧ c.toNat ≤ 57) ∨ (97 ≤ c.toNat ∧ c.toNat ≤ 102) ∨
    (65 ≤ c.toNat ∧ c.toNat ≤ 70) := (hexDigitVal?_isSome_iff c).mp h

theorem hexDigit_ne_hash (c : Char) (h : (hexDigitVal? c).isSome = true) :
    c ≠ '#' := by
  intro hc
  have := char_toNat_of_eq c '#' hc
  have hr := hexDigit_toNat_ranges c h
  simp at this
  omega

theorem hexDigit_ne_plus (c : Char) (h : (hexDigitVal? c).isSome = true) :
    c ≠ '+' := by
  intro hc
  have := char_toNat_of_eq c '+' hc
  have hr := hexDigit_toNat_ranges c h
  simp at this
  omega

theorem hexDigit_ne_minus (c : Char) (h : (hexDigitVal? c).isSome = true) :
    c ≠ '-' := by
  intro hc
  have := char_toNat_of_eq c '-' hc
  have hr := hexDigit_toNat_ranges c h
  simp at this
  omega

theorem hexDigit_ne_x (c : Char) (h : (hexDigitVal? c).isSome = true) :
    c ≠ 'x' ∧ c ≠ 'X' := by
  have hr := hexDigit_toNat_ranges c h
  constructor <;> intro hc <;> have := char_toNat_of_eq c _ hc <;>
    simp at this <;> omega

theorem hexDigitVal?_getD_le (c : Char) : (hexDigitVal? c).getD 0 ≤ 15 := by
  unfold hexDigitVal?
  by_cases h1 : 48 ≤ c.toNat ∧ c.toNat ≤ 57
  · simp [h1]
    try omega
  · by_cases h2 : 97 ≤ c.toNat ∧ c.toNat ≤ 102
    · simp [h1, h2]
      try omega
    · by_cases h3 : 65 ≤ c.toNat ∧ c.toNat ≤ 70
      · simp [h1, h2, h3]
        try omega
      · simp [h1, h2, h3]

theorem dropWhile_append_all {α} (p : α → Bool) (l1 l2 : List α)
    (h : ∀ c ∈ l1, p c = true) :
    (l1 ++ l2).dropWhile p = l2.dropWhile p := by
  induction l1 with
  | nil => rfl
  | cons a l ih =>
    simp only [List.cons_append, List.dropWhile_cons, h a (by simp), if_true]
    exact ih (fun c hc => h c (by simp [hc]))

theorem dropWhile_cons_head_false {α} (p : α → Bool) (c : α) (l : List α)
    (h : p c = false) : (c :: l).dropWhile p = c :: l := by
  simp [List.dropWhile_cons, h]

theorem removeFirstHash_no_hash (l : List Char) (h : ∀ c ∈ l, c ≠ '#') :
    removeFirstHash l = l := by
  induction l with
  | nil => rfl
  | cons c cs ih =>
    simp only [removeFirstHash, if_neg (h c (by simp))]
    rw [ih (fun x hx => h x (by simp [hx]))]

theorem hexMagnitude_pair (c1 c2 : Char)
    (h1 : (hexDigitVal? c1).isSome = true) (h2 : (hexDigitVal? c2).isSome = true) :
    hexMagnitude [c1, c2] =
      some (16 * (hexDigitVal? c1).getD 0 + (hexDigitVal? c2).getD 0) := by
  have hx := hexDigit_ne_x c2 h2
  have hcond : ¬ (c1 = '0' ∧ (c2 = 'x' ∨ c2 = 'X')) := by
    rintro ⟨-, hc | hc⟩
    · exact hx.1 hc
    · exact hx.2 hc
  unfold hexMagnitude
  simp only [if_neg hcond, List.takeWhile_cons, h1, h2, if_true, List.takeWhile_nil,
    List.isEmpty_cons, List.foldl_cons, List.foldl_nil, Bool.false_eq_true, if_false]
  congr 1
  omega

theorem parseIntHex_pair (c1 c2 : Char)
    (h1 : (hexDigitVal? c1).isSome = true) (h2 : (hexDigitVal? c2).isSome = true) :
    parseIntHex [c1, c2] =
      some ((16 * (hexDigitVal? c1).getD 0 + (hexDigitVal? c2).getD 0 : Nat) : Int) := by
  unfold parseIntHex
  rw [dropWhile_cons_head_false isJsSpace c1 [c2] (hexDigit_not_space c1 h1)]
  simp only [if_neg (hexDigit_ne_plus c1 h1), if_neg (hexDigit_ne_minus c1 h1)]
  rw [hexMagnitude_pair c1 c2 h1 h2]
  rfl

theorem channelScaled_ofNat (n : Nat) :
    channelScaled (n : Int) = ((chanOfByte n : Nat) : Int) := by
  unfold channelScaled chanOfByte
  rw [show (2000000 * (n : Int) + 255) = ((2000000 * n + 255 : Nat) : Int) by push_cast; ring]
  rfl

theorem chanOfByte_le (b : Nat) (h : b ≤ 255) : chanOfByte b ≤ 1000000 := by
  unfold chanOfByte
  omega

theorem toBytes_le : ∀ l : List Char, ∀ b ∈ toBytes l, b ≤ 255
  | [] => by simp [toBytes]
  | [c] => by simp [toBytes]
  | c1 :: c2 :: rest => by
    intro b hb
    simp only [toBytes, List.mem_cons] at hb
    rcases hb with rfl | hb
    · have g1 := hexDigitVal?_getD_le c1
      have g2 := hexDigitVal?_getD_le c2
      omega
    · exact toBytes_le rest b hb

theorem jsTrim_sandwich (pre post mid : List Char)
    (hpre : ∀ x ∈ pre, isJsSpace x = true)
    (hpost : ∀ x ∈ post, isJsSpace x = true)
    (hne : mid ≠ [])
    (hhead : ∀ x, mid.head? = some x → isJsSpace x = false)
    (hlast : ∀ x, mid.reverse.head? = some x → isJsSpace x = false) :
    jsTrim (pre ++ mid ++ post) = mid := by
  obtain ⟨c, l, rfl⟩ := List.exists_cons_of_ne_nil hne
  have hc : isJsSpace c = false := hhead c rfl
  unfold jsTrim
  rw [List.append_assoc, dropWhile_append_all _ pre _ hpre]
  rw [show (c :: l) ++ post = c :: (l ++ post) from rfl]
  rw [dropWhile_cons_head_false _ _ _ hc]
  rw [show (c :: (l ++ post)).reverse = post.reverse ++ (c :: l).reverse by simp]
  rw [dropWhile_append_all _ post.reverse _ (fun x hx => hpost x (List.mem_reverse.mp hx))]
  obtain ⟨d, t, hdt⟩ : ∃ d t, (c :: l).reverse = d :: t := by
    cases hrc : (c :: l).reverse with
    | nil => exact absurd (congrArg List.length hrc) (by simp)
    | cons d t => exact ⟨d, t, rfl⟩
  have hd : isJsSpace d = false := hlast d (by rw [hdt]; rfl)
  rw [hdt, dropWhile_cons_head_false _ _ _ hd, ← hdt, List.reverse_reverse]

theorem list_len_three {α} (l : List α) (h : l.length = 3) :
    ∃ c1 c2 c3, l = [c1, c2, c3] := by
  rcases l with _ | ⟨c1, _ | ⟨c2, _ | ⟨c3, _ | ⟨c4, t⟩⟩⟩⟩
  · simp at h
  · simp at h
  · simp at h
  · exact ⟨c1, c2, c3, rfl⟩
  · simp at h

theorem list_len_six {α} (l : List α) (h : l.length = 6) :
    ∃ c1 c2 c3 c4 c5 c6, l = [c1, c2, c3, c4, c5, c6] := by
  rcases l with _ | ⟨c1, _ | ⟨c2, _ | ⟨c3, _ | ⟨c4, _ | ⟨c5, _ | ⟨c6, _ | ⟨c7, t⟩⟩⟩⟩⟩⟩⟩
  · simp at h
  · simp at h
  · simp at h
  · simp at h
  · simp at h
  · simp at h
  · exact ⟨c1, c2, c3, c4, c5, c6, rfl⟩
  · simp at h

theorem list_len_eight {α} (l : List α) (h : l.length = 8) :
    ∃ c1 c2 c3 c4 c5 c6 c7 c8, l = [c1, c2, c3, c4, c5, c6, c7, c8] := by
  rcases l with _ | ⟨c1, _ | ⟨c2, _ | ⟨c3, _ | ⟨c4, _ | ⟨c5, _ | ⟨c6, _ | ⟨c7,
    _ | ⟨c8, _ | ⟨c9, t⟩⟩⟩⟩⟩⟩⟩⟩⟩
  · simp at h
  · simp at h
  · simp at h
  · simp at h
  · simp at h
  · simp at h
  · simp at h
  · simp at h
  · exact ⟨c1, c2, c3, c4, c5, c6, c7, c8, rfl⟩
  · simp at h

theorem hexToXcodeColor_eight (s fb : String)
    (x1 x2 x3 x4 x5 x6 x7 x8 : Char)
    (hs : s ≠ "")
    (hn : normalizeHex s = [x1, x2, x3, x4, x5, x6, x7, x8])
    (h1 : (hexDigitVal? x1).isSome = true) (h2 : (hexDigitVal? x2).isSome = true)
    (h3 : (hexDigitVal? x3).isSome = true) (h4 : (hexDigitVal? x4).isSome = true)
    (h5 : (hexDigitVal? x5).isSome = true) (h6 : (hexDigitVal? x6).isSome = true)
    (h7 : (hexDigitVal? x7).isSome = true) (h8 : (hexDigitVal? x8).isSome = true) :
    hexToXcodeColor s fb =
      String.intercalate " "
        ((toBytes [x1, x2, x3, x4, x5, x6, x7, x8]).map
          (fun b => fmtChannel (chanOfByte b))) := by
  have hch : hexChannels [x1, x2, x3, x4, x5, x6, x7, x8] =
      some (((16 * (hexDigitVal? x1).getD 0 + (hexDigitVal? x2).getD 0 : Nat) : Int),
            ((16 * (hexDigitVal? x3).getD 0 + (hexDigitVal? x4).getD 0 : Nat) : Int),
            ((16 * (hexDigitVal? x5).getD 0 + (hexDigitVal? x6).getD 0 : Nat) : Int),
            ((16 * (hexDigitVal? x7).getD 0 + (hexDigitVal? x8).getD 0 : Nat) : Int)) := by
    unfold hexChannels
    rw [show ([x1, x2, x3, x4, x5, x6, x7, x8] : List Char).take 2 = [x1, x2] from rfl]
    rw [show (([x1, x2, x3, x4, x5, x6, x7, x8] : List Char).drop 2).take 2 = [x3, x4] from rfl]
    rw [show (([x1, x2, x3, x4, x5, x6, x7, x8] : List Char).drop 4).take 2 = [x5, x6] from rfl]
    rw [show (([x1, x2, x3, x4, x5, x6, x7, x8] : List Char).drop 6).take 2 = [x7, x8] from rfl]
    rw [parseIntHex_pair x1 x2 h1 h2, parseIntHex_pair x3 x4 h3 h4,
        parseIntHex_pair x5 x6 h5 h6, parseIntHex_pair x7 x8 h7 h8]
  have hb1 : 16 * (hexDigitVal? x1).getD 0 + (hexDigitVal? x2).getD 0 ≤ 255 := by
    have := hexDigitVal?_getD_le x1; have := hexDigitVal?_getD_le x2; omega
  have hb2 : 16 * (hexDigitVal? x3).getD 0 + (hexDigitVal? x4).getD 0 ≤ 255 := by
    have := hexDigitVal?_getD_le x3; have := hexDigitVal?_getD_le x4; omega
  have hb3 : 16 * (hexDigitVal? x5).getD 0 + (hexDigitVal? x6).getD 0 ≤ 255 := by
    have := hexDigitVal?_getD_le x5; have := hexDigitVal?_getD_le x6; omega
  have hb4 : 16 * (hexDigitVal? x7).getD 0 + (hexDigitVal? x8).getD 0 ≤ 255 := by
    have := hexDigitVal?_getD_le x7; have := hexDigitVal?_getD_le x8; omega
  unfold hexToXcodeColor
  rw [if_neg hs, hn]
  rw [if_neg (show ¬ (([x1, x2, x3, x4, x5, x6, x7, x8] : List Char).length ≠ 8) by simp)]
  rw [hch]
  simp only [channelScaled_ofNat]
  rw [if_neg ?hcond]
  case hcond =>
    have e1 := chanOfByte_le _ hb1
    have e2 := chanOfByte_le _ hb2
    have e3 := chanOfByte_le _ hb3
    have e4 := chanOfByte_le _ hb4
    omega
  simp only [Int.toNat_natCast]
  rfl

theorem normalizeHex_sandwich (pre post hpart ds : List Char)
    (hpre : ∀ x ∈ pre, isJsSpace x = true)
    (hpost : ∀ x ∈ post, isJsSpace x = true)
    (hds : ∀ c ∈ ds, (hexDigitVal? c).isSome = true)
    (hdsne : ds ≠ [])
    (hhp : hpart = ['#'] ∨ hpart = []) :
    normalizeHex (String.mk (pre ++ hpart ++ ds ++ post)) = expandHexLen ds := by
  obtain ⟨e, t, hrev⟩ : ∃ e t, ds.reverse = e :: t := by
    cases hr : ds.reverse with
    | nil => exact absurd (by simpa using congrArg List.length hr) hdsne
    | cons e t => exact ⟨e, t, rfl⟩
  have he : e ∈ ds := List.mem_reverse.mp (hrev ▸ List.mem_cons_self e t)
  have helast : isJsSpace e = false := hexDigit_not_space e (hds e he)
  obtain ⟨d, ds', hd⟩ : ∃ d t, ds = d :: t := List.exists_cons_of_ne_nil hdsne
  have hdhead : isJsSpace d = false :=
    hexDigit_not_space d (hds d (hd ▸ List.mem_cons_self d ds'))
  unfold normalizeHex
  rcases hhp with rfl | rfl
  · have hshape : pre ++ ['#'] ++ ds ++ post = pre ++ ('#' :: ds) ++ post := by
      simp [List.append_assoc]
    have htrim : jsTrim (pre ++ ('#' :: ds) ++ post) = '#' :: ds := by
      apply jsTrim_sandwich _ _ _ hpre hpost (by simp)
      · intro x hx
        simp only [List.head?_cons, Option.some.injEq] at hx
        subst hx
        decide
      · intro x hx
        rw [show ('#' :: ds).reverse = e :: (t ++ ['#']) by
          rw [List.reverse_cons, hrev]; simp] at hx
        simp only [List.head?_cons, Option.some.injEq] at hx
        subst hx
        exact helast
    rw [show (String.mk (pre ++ ['#'] ++ ds ++ post)).toList =
        pre ++ ('#' :: ds) ++ post from
      congrArg (fun l => (String.mk l).toList) hshape]
    rw [htrim]
    rw [show removeFirstHash ('#' :: ds) = ds by simp [removeFirstHash]]
  · have hshape : pre ++ [] ++ ds ++ post = pre ++ ds ++ post := by
      simp
    have htrim : jsTrim (pre ++ ds ++ post) = ds := by
      apply jsTrim_sandwich _ _ _ hpre hpost hdsne
      · intro x hx
        rw [hd] at hx
        simp only [List.head?_cons, Option.some.injEq] at hx
        subst hx
        exact hdhead
      · intro x hx
        rw [hrev] at hx
        simp only [List.head?_cons, Option.some.injEq] at hx
        subst hx
        exact helast
    rw [show (String.mk (pre ++ [] ++ ds ++ post)).toList =
        pre ++ ds ++ post from
      congrArg (fun l => (String.mk l).toList) hshape]
    rw [htrim]
    rw [removeFirstHash_no_hash ds (fun c hc => hexDigit_ne_hash c (hds c hc))]

theorem stringMk_ne_empty (l : List Char) (h : l ≠ []) : String.mk l ≠ "" := by
  intro hh
  exact h (show l = [] from congrArg String.data hh)

/-- **C1.** On every valid hex input — optional surrounding whitespace, an
optional leading `#`, then 3, 6 or 8 hex digits — `hexToXcodeColor` returns
the four channel values (R G B A order, 3 digits expanded by duplication and
6-digit forms given alpha `FF`), each the byte divided by 255, rounded to six
decimals (`chanOfByte`), space-separated; every channel lies in [0,1], and in
particular `#FFFFFF ↦ "1 1 1 1"`, `#000000 ↦ "0 0 0 1"` and
`#80808080 ↦` four times `0.501961`. -/
theorem hexToXcodeColor_valid_hex
    (pre post ds : List Char) (hash : Bool) (fb : String)
    (hpre : ∀ c ∈ pre, isJsSpace c = true)
    (hpost : ∀ c ∈ post, isJsSpace c = true)
    (hds : ∀ c ∈ ds, (hexDigitVal? c).isSome = true)
    (hlen : ds.length = 3 ∨ ds.length = 6 ∨ ds.length = 8) :
    hexToXcodeColor
        (String.mk (pre ++ (if hash then ['#'] else []) ++ ds ++ post)) fb =
      String.intercalate " "
        ((toBytes (expandHexLen ds)).map (fun b => fmtChannel (chanOfByte b))) ∧
    (∀ b ∈ toBytes (expandHexLen ds), chanOfByte b ≤ 1000000) ∧
    hexToXcodeColor "#FFFFFF" fb = "1 1 1 1" ∧
    hexToXcodeColor "#000000" fb = "0 0 0 1" ∧
    hexToXcodeColor "#80808080" fb = "0.501961 0.501961 0.501961 0.501961" := by
  have hdsne : ds ≠ [] := by
    intro hh
    rw [hh] at hlen
    simp at hlen
  have hnorm : normalizeHex
      (String.mk (pre ++ (if hash then ['#'] else []) ++ ds ++ post)) =
      expandHexLen ds :=
    normalizeHex_sandwich pre post _ ds hpre hpost hds hdsne
      (by cases hash <;> simp)
  have hsne : String.mk (pre ++ (if hash then ['#'] else []) ++ ds ++ post) ≠ "" := by
    apply stringMk_ne_empty
    obtain ⟨d, t, rfl⟩ := List.exists_cons_of_ne_nil hdsne
    simp
  refine ⟨?_, fun b hb => chanOfByte_le b (toBytes_le _ b hb), rfl, rfl, rfl⟩
  rcases hlen with h3 | h6 | h8
  · obtain ⟨a, b, c, rfl⟩ := list_len_three ds h3
    have hexp : expandHexLen [a, b, c] = [a, a, b, b, c, c, 'F', 'F'] := rfl
    rw [hexp] at hnorm ⊢
    apply hexToXcodeColor_eight _ _ _ _ _ _ _ _ _ _ hsne hnorm <;>
      first
        | decide
        | exact hds _ (by simp)
  · obtain ⟨a, b, c, d, e, f, rfl⟩ := list_len_six ds h6
    have hexp : expandHexLen [a, b, c, d, e, f] = [a, b, c, d, e, f, 'F', 'F'] := rfl
    rw [hexp] at hnorm ⊢
    apply hexToXcodeColor_eight _ _ _ _ _ _ _ _ _ _ hsne hnorm <;>
      first
        | decide
        | exact hds _ (by simp)
  · obtain ⟨a, b, c, d, e, f, g, h, rfl⟩ := list_len_eight ds h8
    have hexp : expandHexLen [a, b, c, d, e, f, g, h] = [a, b, c, d, e, f, g, h] := rfl
    rw [hexp] at hnorm ⊢
    apply hexToXcodeColor_eight _ _ _ _ _ _ _ _ _ _ hsne hnorm <;>
      exact hds _ (by simp)

/-- Witness for `hexToXcodeColor_valid_hex`: `" #80808080 "` (whitespace and
`#` included) converts to the predicted channel string. -/
theorem hexToXcodeColor_valid_hex_witness :
    hexToXcodeColor
        (String.mk ([' '] ++ ['#'] ++ ['8', '0', '8', '0', '8', '0', '8', '0'] ++ [' ']))
        "0 0 0 0" =
      String.intercalate " "
        ((toBytes (expandHexLen ['8', '0', '8', '0', '8', '0', '8', '0'])).map
          (fun b => fmtChannel (chanOfByte b))) := by
  have h := hexToXcodeColor_valid_hex [' '] [' ']
    ['8', '0', '8', '0', '8', '0', '8', '0'] true "0 0 0 0"
    (by decide) (by decide) (by decide) (by decide)
  exact h.1
